import Mathlib

/-!
Verification development for the azure-translator-accelerator backend.

The definitions below are shallow embeddings of the Python services in
`src/backend/app`: the Table-Storage job tracker (`table_job_tracker.py`),
the dictionary annotator and batch service (`batch_service.py`), the
translator retry wrapper (`translator_service.py`) and the worker loop
(`worker.py`).  Environmental effects (HTTP calls, blob storage, the queue)
are made explicit: each operation that can fail is driven by an outcome
recorded in an environment record, and side effects are accumulated in
explicit lists.  Timestamps are abstracted to a Boolean "was stamped" flag.
-/

/-! ## Job tracker (`table_job_tracker.py`) -/

/-- A job entity as stored by `TableJobTracker` (timestamps abstracted:
`completed_at_set` records whether `completed_at` was ever stamped). -/
structure JobEntity where
  status : String
  total_files : Nat
  processed_files : Nat
  failed_files : Nat
  completed_at_set : Bool
deriving DecidableEq, Repr

/-- `TableJobTracker.create_job`: fresh entity with status `queued`,
zero counters and no completion stamp. -/
def create_job (total : Nat) : JobEntity :=
  { status := "queued"
    total_files := total
    processed_files := 0
    failed_files := 0
    completed_at_set := false }

/-- `TableJobTracker.update_progress`: increments the counters when the
increment argument is positive, overwrites the status when a truthy status
string is passed, then auto-completes when the counter sum has reached a
positive total and the status is not already `completed`. -/
def update_progress (e : JobEntity) (processed failed : Nat)
    (status : Option String) : JobEntity :=
  let e1 := if 0 < processed then
    { e with processed_files := e.processed_files + processed } else e
  let e2 := if 0 < failed then
    { e1 with failed_files := e1.failed_files + failed } else e1
  let e3 := match status with
    | some s => if s ≠ "" then { e2 with status := s } else e2
    | none => e2
  if e3.processed_files + e3.failed_files ≥ e3.total_files ∧ 0 < e3.total_files then
    (if e3.status ≠ "completed" then
      { e3 with status := "completed", completed_at_set := true } else e3)
  else e3

/-- One worker-side progress update: `true` reports one processed file
(`update_progress job_id processed=1`), `false` one failed file. -/
def apply_update (e : JobEntity) (u : Bool) : JobEntity :=
  update_progress e (if u then 1 else 0) (if u then 0 else 1) none

/-- A sequence of worker-side progress updates applied in order. -/
def apply_updates (e : JobEntity) : List Bool → JobEntity
  | [] => e
  | u :: us => apply_updates (apply_update e u) us

theorem update_progress_counters (e : JobEntity) (p f : Nat) (st : Option String) :
    (update_progress e p f st).processed_files = e.processed_files + p ∧
    (update_progress e p f st).failed_files = e.failed_files + f ∧
    (update_progress e p f st).total_files = e.total_files := by
  unfold update_progress
  rcases Nat.eq_zero_or_pos p with hp | hp <;>
    rcases Nat.eq_zero_or_pos f with hf | hf <;> cases st
  all_goals dsimp only
  all_goals repeat' split
  all_goals simp_all

theorem apply_update_mid (e : JobEntity) (u : Bool)
    (hs : e.status = "queued")
    (hlt : e.processed_files + e.failed_files + 1 < e.total_files) :
    apply_update e u =
      { e with
        processed_files := e.processed_files + (if u then 1 else 0)
        failed_files := e.failed_files + (if u then 0 else 1) } := by
  cases u <;> unfold apply_update update_progress
  all_goals dsimp only
  all_goals repeat' split
  all_goals (try simp_all)
  all_goals omega

theorem apply_update_last (e : JobEntity) (u : Bool)
    (hs : e.status ≠ "completed")
    (hge : e.total_files ≤ e.processed_files + e.failed_files + 1)
    (hpos : 0 < e.total_files) :
    apply_update e u =
      { e with
        processed_files := e.processed_files + (if u then 1 else 0)
        failed_files := e.failed_files + (if u then 0 else 1)
        status := "completed"
        completed_at_set := true } := by
  cases u <;> unfold apply_update update_progress
  all_goals dsimp only
  all_goals repeat' split
  all_goals (try simp_all)
  all_goals omega

theorem apply_updates_run (l : List Bool) :
    ∀ e : JobEntity, l ≠ [] → e.status = "queued" →
    e.processed_files + e.failed_files + l.length = e.total_files →
    apply_updates e l =
      { status := "completed"
        total_files := e.total_files
        processed_files := e.processed_files + l.count true
        failed_files := e.failed_files + l.count false
        completed_at_set := true } := by
  induction l with
  | nil => intro e h; exact absurd rfl h
  | cons u us ih =>
    intro e _ hs hsum
    rcases List.eq_nil_or_concat us with hus | _
    · subst hus
      have h1 := apply_update_last e u (by rw [hs]; decide)
        (by simp at hsum; omega) (by simp at hsum; omega)
      show apply_updates (apply_update e u) [] = _
      rw [h1]
      cases u <;> simp [apply_updates]
    · have husne : us ≠ [] := by
        rintro rfl; simp_all
      have hlen : 1 ≤ us.length := by
        cases us with
        | nil => exact absurd rfl husne
        | cons a as => simp
      have h1 := apply_update_mid e u hs (by simp at hsum; omega)
      show apply_updates (apply_update e u) us = _
      rw [h1]
      have h2 := ih
        { e with
          processed_files := e.processed_files + (if u then 1 else 0)
          failed_files := e.failed_files + (if u then 0 else 1) }
        husne hs (by cases u <;> simp at hsum ⊢ <;> omega)
      rw [h2]
      cases u <;> simp [List.count_cons] <;> omega

/-- C9: for a job created with `total_files = N > 0`, any sequence of `N`
single-file progress updates (each one incrementing `processed` or `failed`
by one, in any order) leaves the job `completed` with `completed_at`
stamped, the counters equal to the respective numbers of increments, and
the final entity independent of the order of the updates. -/
theorem update_progress_completion_order_independent
    (n : Nat) (l : List Bool) (hn : 0 < n) (hl : l.length = n) :
    apply_updates (create_job n) l =
      { status := "completed"
        total_files := n
        processed_files := l.count true
        failed_files := l.count false
        completed_at_set := true } ∧
    ∀ l' : List Bool, l.Perm l' →
      apply_updates (create_job n) l' = apply_updates (create_job n) l := by
  have hne : l ≠ [] := by
    rintro rfl; simp at hl; omega
  have h1 := apply_updates_run l (create_job n) hne rfl (by simp [create_job, hl])
  refine ⟨by simpa [create_job] using h1, ?_⟩
  intro l' hperm
  have hne' : l' ≠ [] := by
    rintro rfl
    simp_all [List.Perm.eq_nil]
  have h2 := apply_updates_run l' (create_job n) hne' rfl
    (by simp [create_job, hperm.length_eq ▸ hl])
  rw [h1, h2, hperm.count_eq, hperm.count_eq]

/-- C9 witness: a job of two files, one processed and one failed update. -/
theorem update_progress_completion_order_independent_witness :
    apply_updates (create_job 2) [true, false] =
      { status := "completed"
        total_files := 2
        processed_files := 1
        failed_files := 1
        completed_at_set := true } ∧
    apply_updates (create_job 2) [false, true] =
      apply_updates (create_job 2) [true, false] := by
  have h := update_progress_completion_order_independent 2 [true, false]
    (by decide) (by decide)
  exact ⟨by simpa using h.1, h.2 [false, true] (by decide)⟩

/-- C3 counterexample: a two-file job whose status is explicitly set to
`failed` by one progress update is overwritten to `completed` by the next
update_progress call once the counter sum reaches the total — the guard in
the code only protects a status already equal to `completed`. -/
theorem update_progress_overwrites_failed_counterexample :
    (update_progress (create_job 2) 0 1 (some "failed")).status = "failed" ∧
    (update_progress (update_progress (create_job 2) 0 1 (some "failed"))
        1 0 none).status = "completed" := by
  constructor <;> rfl

/-- C3 amended: the auto-completion transition in `update_progress` fires
whenever the updated counter sum reaches a positive total and the current
status is not already `completed`; in particular a status explicitly set to
`failed` does not block it and is overwritten to `completed` (with
`completed_at` stamped), and only the `completed` status itself is preserved
by counter-only updates. -/
theorem update_progress_failed_not_terminal :
    (∀ (e : JobEntity) (p f : Nat), e.status = "failed" → 0 < e.total_files →
      e.total_files ≤ e.processed_files + p + (e.failed_files + f) →
      (update_progress e p f none).status = "completed" ∧
      (update_progress e p f none).completed_at_set = true) ∧
    (∀ (e : JobEntity) (p f : Nat), e.status = "completed" →
      (update_progress e p f none).status = "completed") := by
  constructor
  · intro e p f hs hpos hge
    unfold update_progress
    rcases Nat.eq_zero_or_pos p with hp | hp <;>
      rcases Nat.eq_zero_or_pos f with hf | hf
    all_goals dsimp only
    all_goals repeat' split
    all_goals simp_all
  · intro e p f hs
    unfold update_progress
    rcases Nat.eq_zero_or_pos p with hp | hp <;>
      rcases Nat.eq_zero_or_pos f with hf | hf
    all_goals dsimp only
    all_goals repeat' split
    all_goals simp_all

/-- C3 amended witness: a concrete one-file entity in status `failed` whose
counter-reaching update flips it to `completed`, and a `completed` entity
that stays `completed`. -/
theorem update_progress_failed_not_terminal_witness :
    (update_progress ⟨"failed", 1, 0, 0, false⟩ 1 0 none).status = "completed" ∧
    (update_progress ⟨"completed", 3, 1, 1, true⟩ 1 0 none).status = "completed" :=
  ⟨(update_progress_failed_not_terminal.1 ⟨"failed", 1, 0, 0, false⟩ 1 0 rfl
      (by decide) (by decide)).1,
   update_progress_failed_not_terminal.2 ⟨"completed", 3, 1, 1, true⟩ 1 0 rfl⟩

/-! ## Dictionary annotator (`batch_service.py`, `annotate_text_with_dictionary`)

The Python method compiles, for each dictionary term (longest first), the
pattern `\b<escaped term>\b` with `re.IGNORECASE` and substitutes every
match by a literal `<mstrans:dictionary ...>` tag.  The embedding models
the word-boundary literal search and the left-to-right non-overlapping
substitution of `re.sub` directly on character lists; matching is ASCII
case-insensitive like `re.IGNORECASE` on ASCII input.  Fuel (the length of
the scanned text) makes the recursion structural; one character is always
consumed per step, so the fuel never runs out. -/

/-- `\w` of the regex engine on ASCII: letters, digits and underscore. -/
def isWordChar (c : Char) : Bool := c.isAlphanum || c == '_'

/-- Case-insensitive literal prefix test (`re.IGNORECASE` on ASCII). -/
def prefixMatchIC : List Char → List Char → Bool
  | [], _ => true
  | _ :: _, [] => false
  | a :: as, b :: bs => (a.toLower == b.toLower) && prefixMatchIC as bs

/-- `\b`: the word-character property changes between adjacent positions;
the edges of the string count as non-word. -/
def wordBoundary (a b : Option Char) : Bool :=
  (match a with | some x => isWordChar x | none => false)
    != (match b with | some y => isWordChar y | none => false)

/-- The pattern `\b<term>\b` (case-insensitive) matches at the head of `s`,
whose predecessor character is `prev`. -/
def matchHere (term : List Char) (prev : Option Char) (s : List Char) : Bool :=
  !term.isEmpty && prefixMatchIC term s && wordBoundary prev s[0]?
    && wordBoundary s[term.length - 1]? s[term.length]?

/-- Left-to-right non-overlapping substitution of `re.sub` for the pattern
`\b<term>\b`: later matching continues on the original text after the
matched span (the inserted replacement is never rescanned in the same
pass). -/
def subWordAux (term repl : List Char) : Nat → Option Char → List Char → List Char
  | 0, _, s => s
  | _ + 1, _, [] => []
  | fuel + 1, prev, c :: rest =>
    if matchHere term prev (c :: rest) then
      repl ++ subWordAux term repl fuel (c :: rest)[term.length - 1]?
        ((c :: rest).drop term.length)
    else
      c :: subWordAux term repl fuel (some c) rest

/-- `re.sub(rf'\b{re.escape(term)}\b', repl, s, flags=re.IGNORECASE)` for a
literal `term` and a literal replacement. -/
def pythonSubWordIC (term repl s : String) : String :=
  String.mk (subWordAux term.data repl.data s.data.length none s.data)

/-- Stable insertion for sorting by length, longest first (ties keep the
original order, like Python's stable `sorted(keys, key=len, reverse=True)`). -/
def insertLenDesc (x : String) : List String → List String
  | [] => [x]
  | y :: ys => if x.length < y.length then y :: insertLenDesc x ys else x :: y :: ys

/-- `sorted(dictionary.keys(), key=len, reverse=True)`. -/
def sortLenDesc (l : List String) : List String := l.foldr insertLenDesc []

/-- The replacement text built for one term:
`<mstrans:dictionary translation="{translation}">{term}</mstrans:dictionary>`. -/
def dictionary_tag (translation term : String) : String :=
  "<mstrans:dictionary translation=\"" ++ translation ++ "\">" ++ term
    ++ "</mstrans:dictionary>"

/-- `BatchTranslationService.annotate_text_with_dictionary`: returns the
text unchanged for an empty dictionary, otherwise substitutes every term,
longest terms first, each pass running over the previous pass's output. -/
def annotate_text_with_dictionary (text : String)
    (dictionary : List (String × String)) : String :=
  if dictionary.isEmpty then text
  else
    (sortLenDesc (dictionary.map Prod.fst)).foldl
      (fun acc term =>
        pythonSubWordIC term
          (dictionary_tag ((dictionary.lookup term).getD "") term) acc)
      text

/-- Non-overlapping substring occurrence count (Python's `str.count`). -/
def countOccurAux (pat : List Char) : Nat → List Char → Nat
  | 0, _ => 0
  | _ + 1, [] => 0
  | fuel + 1, c :: rest =>
    if pat.isPrefixOf (c :: rest) then
      1 + countOccurAux pat fuel ((c :: rest).drop (max pat.length 1))
    else countOccurAux pat fuel rest

/-- `s.count(pat)` for non-empty `pat`. -/
def countOccur (pat s : String) : Nat := countOccurAux pat.data s.data.length s.data

set_option maxRecDepth 8000 in
/-- C4: on the overlapping dictionary of the repository's own test
`test_annotate_text_longest_first`, a single annotation pass produces FOUR
`<mstrans:dictionary` markers, not the asserted two, and nests a marker
inside the attribute of the marker produced for the longer term: the second
(shorter-term) pass re-matches `Azure` inside the first pass's own output. -/
theorem annotate_overlapping_terms_nested_markers :
    countOccur "<mstrans:dictionary"
      (annotate_text_with_dictionary
        "Azure Translator is better than Azure services."
        [("Azure", "Azure"), ("Azure Translator", "Azure Translator")]) = 4 ∧
    countOccur "translation=\"<mstrans:dictionary"
      (annotate_text_with_dictionary
        "Azure Translator is better than Azure services."
        [("Azure", "Azure"), ("Azure Translator", "Azure Translator")]) = 1 := by
  constructor <;> decide

set_option maxRecDepth 4000 in
/-- C5 counterexample: a lowercase dictionary key `api` matching the
uppercase occurrence `API` emits the key's spelling `api` inside the
marker; the original surface form `API` does not appear in the output at
all, so the surface form is not preserved. -/
theorem annotate_surface_form_counterexample :
    annotate_text_with_dictionary "API" [("api", "X")] =
      "<mstrans:dictionary translation=\"X\">api</mstrans:dictionary>" ∧
    countOccur "API" (annotate_text_with_dictionary "API" [("api", "X")]) = 0 := by
  constructor <;> decide

/-- The output of one substitution pass decomposes against its input:
the input splits into alternating unmatched gaps and matched spans, and the
output is the same sequence of gaps with every matched span replaced by the
replacement text.  `pieces` lists the (gap, matched span) pairs in order,
`tailGap` is the unmatched remainder. -/
def joinPieces (pieces : List (List Char × List Char)) (tailGap : List Char) : List Char :=
  (pieces.map (fun p => p.1 ++ p.2)).flatten ++ tailGap

/-- The corresponding output text: each matched span replaced by `repl`. -/
def joinPiecesWith (repl : List Char) (pieces : List (List Char × List Char))
    (tailGap : List Char) : List Char :=
  (pieces.map (fun p => p.1 ++ repl)).flatten ++ tailGap

theorem prefixMatchIC_length {term s : List Char} (h : prefixMatchIC term s = true) :
    term.length ≤ s.length := by
  induction term generalizing s with
  | nil => simp
  | cons a as ih =>
    cases s with
    | nil => simp [prefixMatchIC] at h
    | cons b bs =>
      simp only [prefixMatchIC, Bool.and_eq_true] at h
      simpa using ih h.2

theorem prefixMatchIC_take {term s : List Char} (h : prefixMatchIC term s = true) :
    prefixMatchIC term (s.take term.length) = true := by
  induction term generalizing s with
  | nil => simp [prefixMatchIC]
  | cons a as ih =>
    cases s with
    | nil => simp [prefixMatchIC] at h
    | cons b bs =>
      simp only [prefixMatchIC, Bool.and_eq_true] at h
      simp only [List.length_cons, List.take_succ_cons, prefixMatchIC, Bool.and_eq_true]
      exact ⟨h.1, ih h.2⟩

theorem subWordAux_decomp (term repl : List Char) (hterm : term ≠ []) :
    ∀ (fuel : Nat) (prev : Option Char) (s : List Char), s.length ≤ fuel →
    ∃ (pieces : List (List Char × List Char)) (tailGap : List Char),
      (∀ p ∈ pieces, p.2.length = term.length ∧ prefixMatchIC term p.2 = true) ∧
      s = joinPieces pieces tailGap ∧
      subWordAux term repl fuel prev s = joinPiecesWith repl pieces tailGap := by
  intro fuel
  induction fuel with
  | zero =>
    intro prev s hs
    have hnil : s = [] := List.eq_nil_of_length_eq_zero (Nat.le_zero.mp hs)
    subst hnil
    exact ⟨[], [], by simp, by simp [joinPieces], by simp [subWordAux, joinPiecesWith]⟩
  | succ f ih =>
    intro prev s hs
    cases s with
    | nil => exact ⟨[], [], by simp, by simp [joinPieces], by simp [subWordAux, joinPiecesWith]⟩
    | cons c rest =>
      cases hm : matchHere term prev (c :: rest) with
      | true =>
        have hpre : prefixMatchIC term (c :: rest) = true := by
          simp only [matchHere, Bool.and_eq_true] at hm
          exact hm.1.1.2
        have hlen : term.length ≤ (c :: rest).length := prefixMatchIC_length hpre
        have htermlen : 1 ≤ term.length := by
          cases term with
          | nil => exact absurd rfl hterm
          | cons x xs => simp
        have hdrop : ((c :: rest).drop term.length).length ≤ f := by
          simp only [List.length_drop, List.length_cons] at *
          omega
        obtain ⟨ps, t, hsurf, hin, hout⟩ :=
          ih ((c :: rest)[term.length - 1]?) ((c :: rest).drop term.length) hdrop
        refine ⟨([], (c :: rest).take term.length) :: ps, t, ?_, ?_, ?_⟩
        · intro p hp
          rcases List.mem_cons.mp hp with rfl | hp
          · refine ⟨?_, prefixMatchIC_take hpre⟩
            simp only [List.length_take]
            omega
          · exact hsurf p hp
        · have hsplit := List.take_append_drop term.length (c :: rest)
          conv_lhs => rw [← hsplit]
          rw [hin]
          simp [joinPieces, List.append_assoc]
        · show subWordAux term repl (f + 1) prev (c :: rest) = _
          simp only [subWordAux, hm, if_true]
          rw [hout]
          simp [joinPiecesWith, List.append_assoc]
      | false =>
        obtain ⟨ps, t, hsurf, hin, hout⟩ :=
          ih (some c) rest (by simpa using Nat.succ_le_succ_iff.mp hs)
        cases ps with
        | nil =>
          refine ⟨[], c :: t, by simp, ?_, ?_⟩
          · simp only [joinPieces, List.map_nil, List.flatten_nil, List.nil_append] at hin ⊢
            rw [hin]
          · show subWordAux term repl (f + 1) prev (c :: rest) = _
            simp only [subWordAux, hm, if_false, Bool.false_eq_true]
            rw [hout]
            simp [joinPiecesWith]
        | cons gp ps2 =>
          obtain ⟨g, surf⟩ := gp
          refine ⟨(c :: g, surf) :: ps2, t, ?_, ?_, ?_⟩
          · intro p hp
            rcases List.mem_cons.mp hp with rfl | hp
            · exact hsurf (g, surf) (List.mem_cons_self _ _)
            · exact hsurf p (List.mem_cons_of_mem _ hp)
          · simp only [joinPieces, List.map_cons, List.flatten_cons, List.cons_append,
              List.append_assoc] at hin ⊢
            rw [hin]
          · show subWordAux term repl (f + 1) prev (c :: rest) = _
            simp only [subWordAux, hm, if_false, Bool.false_eq_true]
            rw [hout]
            simp [joinPiecesWith]

theorem pythonSubWordIC_decomp (term repl s : String) (hterm : term.data ≠ []) :
    ∃ (pieces : List (List Char × List Char)) (tailGap : List Char),
      (∀ p ∈ pieces, p.2.length = term.data.length ∧ prefixMatchIC term.data p.2 = true) ∧
      s.data = joinPieces pieces tailGap ∧
      (pythonSubWordIC term repl s).data = joinPiecesWith repl.data pieces tailGap := by
  obtain ⟨ps, t, h1, h2, h3⟩ :=
    subWordAux_decomp term.data repl.data hterm s.data.length none s.data le_rfl
  exact ⟨ps, t, h1, h2, by simpa [pythonSubWordIC] using h3⟩

theorem annotate_single_entry (text term translation : String) :
    annotate_text_with_dictionary text [(term, translation)] =
      pythonSubWordIC term (dictionary_tag translation term) text := by
  simp [annotate_text_with_dictionary, sortLenDesc, insertLenDesc, List.lookup]

/-- C5 amended: for every text and every dictionary the annotator runs one
substitution pass per dictionary key (longest keys first, each pass over
the previous pass's output, first conjunct); every such pass, on every
input text and for every key and replacement (second conjunct, applied to
the single-entry dictionary in the third), decomposes its input into
alternating unmatched gaps and matched spans, where each matched span is a
case-insensitive variant of the key (equal length, equal letters up to
case), and replaces every matched span by the marker
`<mstrans:dictionary translation="...">key</mstrans:dictionary>` — so the
text inside the marker is the key as spelled in the dictionary, and the
original surface form of the match is discarded, not preserved. -/
theorem annotate_inserts_dictionary_spelling :
    (∀ (text : String) (dictionary : List (String × String)), dictionary ≠ [] →
      annotate_text_with_dictionary text dictionary =
        (sortLenDesc (dictionary.map Prod.fst)).foldl
          (fun acc term =>
            pythonSubWordIC term
              (dictionary_tag ((dictionary.lookup term).getD "") term) acc)
          text) ∧
    (∀ (acc term translation : String), term.data ≠ [] →
      ∃ (pieces : List (List Char × List Char)) (tailGap : List Char),
        (∀ p ∈ pieces, p.2.length = term.data.length ∧
          prefixMatchIC term.data p.2 = true) ∧
        acc.data = joinPieces pieces tailGap ∧
        (pythonSubWordIC term (dictionary_tag translation term) acc).data
          = joinPiecesWith (dictionary_tag translation term).data pieces tailGap) ∧
    (∀ (text term translation : String), term.data ≠ [] →
      ∃ (pieces : List (List Char × List Char)) (tailGap : List Char),
        (∀ p ∈ pieces, p.2.length = term.data.length ∧
          prefixMatchIC term.data p.2 = true) ∧
        text.data = joinPieces pieces tailGap ∧
        (annotate_text_with_dictionary text [(term, translation)]).data
          = joinPiecesWith (dictionary_tag translation term).data pieces tailGap) := by
  refine ⟨?_, ?_, ?_⟩
  · intro text dictionary hne
    simp [annotate_text_with_dictionary, List.isEmpty_iff, hne]
  · intro acc term translation hterm
    exact pythonSubWordIC_decomp term (dictionary_tag translation term) acc hterm
  · intro text term translation hterm
    rw [annotate_single_entry]
    exact pythonSubWordIC_decomp term (dictionary_tag translation term) text hterm

/-- C5 amended witness: the uppercase occurrence `API` of the key `api`. -/
theorem annotate_inserts_dictionary_spelling_witness :
    ∃ (pieces : List (List Char × List Char)) (tailGap : List Char),
      (∀ p ∈ pieces, p.2.length = "api".data.length ∧
        prefixMatchIC "api".data p.2 = true) ∧
      "x API y".data = joinPieces pieces tailGap ∧
      (annotate_text_with_dictionary "x API y" [("api", "NUBE")]).data
        = joinPiecesWith (dictionary_tag "NUBE" "api").data pieces tailGap :=
  annotate_inserts_dictionary_spelling.2.2 "x API y" "api" "NUBE" (by decide)

/-! ## Queue-mode processing (`BatchTranslationService.process_queue_message`)

The handler reads the message fields (a missing mandatory key raises
`KeyError`), reads the source blob, returns early on a blank file after
counting one failure, translates with NMT then with LLM, performs BOTH
blob writes only after both translations succeeded, and counts one
processed file.  Its `except` clause calls
`update_progress(job_id, failed=1)` and re-raises — but `job_id` is bound
inside the `try`, so when the payload lacks `job_id` the handler itself
raises an unbound-local `NameError` and performs no bookkeeping.  The
environment record drives every fallible external call; `writes` lists the
`write_blob` calls actually performed. -/

/-- A parsed queue message: `None` marks a key missing from the payload
(`message_content[...]` then raises `KeyError`; `source_language` and
`dictionary` are read with `.get` and never raise). -/
structure QueueMessage where
  job_id : Option String
  source_container : Option String
  target_container : Option String
  source_blob : Option String
  target_language : Option String
  source_language : Option String
  dictionary : Option (List (String × String))

/-- How one `process_queue_message` call ends. -/
inductive PQOutcome
  | finished
  | emptyReturn
  | raisedSame
  | raisedNameError
deriving DecidableEq, Repr

/-- Outcomes of the handler's external calls: blob read, the two
translation engines (as functions of the annotated text) and the two blob
writes. -/
structure PQEnv where
  readResult : Option String
  nmt : String → Option String
  llm : String → Option String
  nmtWriteOk : Bool
  llmWriteOk : Bool

/-- Observable result of one `process_queue_message` call: blob writes
performed (container, blob name, content), tracker increments, outcome. -/
structure PQResult where
  writes : List (String × String × String)
  processedInc : Nat
  failedInc : Nat
  outcome : PQOutcome
deriving DecidableEq, Repr

/-- Python falsiness of `content.strip()`: every character is whitespace. -/
def isBlank (s : String) : Bool := s.data.all Char.isWhitespace

/-- `source_blob.split('/')[-1]`. -/
def lastSegment (s : String) : String :=
  ((s.split (fun c => c = '/')).getLast?).getD s

/-- `annotate_text_with_dictionary(content, dictionary) if dictionary else
content`. -/
def annotatedContent (content : String)
    (dictionary : Option (List (String × String))) : String :=
  match dictionary with
  | some d => if d.isEmpty then content else annotate_text_with_dictionary content d
  | none => content

/-- `BatchTranslationService.process_queue_message`. -/
def process_queue_message (msg : QueueMessage) (env : PQEnv) : PQResult :=
  match msg.job_id with
  | none => { writes := [], processedInc := 0, failedInc := 0, outcome := .raisedNameError }
  | some _ =>
    match msg.source_container, msg.target_container,
        msg.source_blob, msg.target_language with
    | some _, some tc, some sb, some _ =>
      (match env.readResult with
       | none => { writes := [], processedInc := 0, failedInc := 1, outcome := .raisedSame }
       | some content =>
         if isBlank content then
           { writes := [], processedInc := 0, failedInc := 1, outcome := .emptyReturn }
         else
           let annotated := annotatedContent content msg.dictionary
           match env.nmt annotated with
           | none => { writes := [], processedInc := 0, failedInc := 1, outcome := .raisedSame }
           | some nmtText =>
             match env.llm annotated with
             | none => { writes := [], processedInc := 0, failedInc := 1, outcome := .raisedSame }
             | some llmText =>
               if env.nmtWriteOk then
                 if env.llmWriteOk then
                   { writes := [(tc, "nmt/" ++ lastSegment sb, nmtText),
                                (tc, "llm/" ++ lastSegment sb, llmText)]
                     processedInc := 1, failedInc := 0, outcome := .finished }
                 else
                   { writes := [(tc, "nmt/" ++ lastSegment sb, nmtText)]
                     processedInc := 0, failedInc := 1, outcome := .raisedSame }
               else
                 { writes := [], processedInc := 0, failedInc := 1, outcome := .raisedSame })
    | _, _, _, _ =>
      { writes := [], processedInc := 0, failedInc := 1, outcome := .raisedSame }

/-- One message iteration of `BatchWorker.process_messages`: parse the
payload (`None` = `json.loads` failed), process it, and delete the message
only after the handler returned without raising; any exception is caught
and the message is simply left to become visible again after the
visibility timeout.  Returns whether `delete_message` was called. -/
def worker_handle_message (parsed : Option QueueMessage) (env : PQEnv) : Bool :=
  match parsed with
  | none => false
  | some msg =>
    match (process_queue_message msg env).outcome with
    | .finished => true
    | .emptyReturn => true
    | .raisedSame => false
    | .raisedNameError => false

/-- C1 counterexample: with a fully-populated work item, a non-blank file,
a successful NMT translation and a failing LLM translation, queue-mode
processing performs NO blob write at all (the `nmt/` blob is absent, both
writes sit after both translations) and DOES increment the failed counter
by one in its `except` clause. -/
theorem pqm_llm_failure_counterexample :
    (process_queue_message
      { job_id := some "j1", source_container := some "src"
        target_container := some "tgt", source_blob := some "docs/a.txt"
        target_language := some "es", source_language := none
        dictionary := none }
      { readResult := some "hello world", nmt := fun _ => some "hola mundo"
        llm := fun _ => none, nmtWriteOk := true, llmWriteOk := true }).writes = [] ∧
    (process_queue_message
      { job_id := some "j1", source_container := some "src"
        target_container := some "tgt", source_blob := some "docs/a.txt"
        target_language := some "es", source_language := none
        dictionary := none }
      { readResult := some "hello world", nmt := fun _ => some "hola mundo"
        llm := fun _ => none, nmtWriteOk := true, llmWriteOk := true }).failedInc = 1 := by
  constructor <;> rfl

/-- C1 amended: whenever queue-mode processing has a successful NMT
translation but a failing LLM translation, the handler raises, no blob at
all has been written to the target container (in particular no
`nmt/<basename>` blob: both writes happen only after both translations
succeed), and the job's failed counter is incremented by exactly one. -/
theorem pqm_llm_failure_no_write_one_failed
    (msg : QueueMessage) (env : PQEnv)
    (j sc tc sb tl : String) (content nmtText : String)
    (hj : msg.job_id = some j) (hsc : msg.source_container = some sc)
    (htc : msg.target_container = some tc) (hsb : msg.source_blob = some sb)
    (htl : msg.target_language = some tl)
    (hr : env.readResult = some content) (hb : isBlank content = false)
    (hn : env.nmt (annotatedContent content msg.dictionary) = some nmtText)
    (hl : env.llm (annotatedContent content msg.dictionary) = none) :
    (process_queue_message msg env).writes = [] ∧
    (process_queue_message msg env).processedInc = 0 ∧
    (process_queue_message msg env).failedInc = 1 ∧
    (process_queue_message msg env).outcome = .raisedSame := by
  simp [process_queue_message, hj, hsc, htc, hsb, htl, hr, hb, hn, hl]

/-- C1 amended witness. -/
theorem pqm_llm_failure_no_write_one_failed_witness :
    (process_queue_message
      { job_id := some "j1", source_container := some "src"
        target_container := some "tgt", source_blob := some "docs/a.txt"
        target_language := some "es", source_language := none
        dictionary := none }
      { readResult := some "hi", nmt := fun _ => some "t"
        llm := fun _ => none, nmtWriteOk := true, llmWriteOk := true }).writes = [] :=
  (pqm_llm_failure_no_write_one_failed _ _ "j1" "src" "tgt" "docs/a.txt" "es"
    "hi" "t" rfl rfl rfl rfl rfl rfl (by decide) rfl rfl).1

/-- C2 counterexample: a payload lacking `job_id` makes the handler raise,
but the exception leaving it is the `except` clause's own unbound-local
`NameError` (not the original `KeyError`), and the failed counter is NOT
incremented. -/
theorem pqm_missing_job_id_counterexample :
    (process_queue_message
      { job_id := none, source_container := some "src"
        target_container := some "tgt", source_blob := some "a.txt"
        target_language := some "es", source_language := none
        dictionary := none }
      { readResult := some "hi", nmt := fun _ => some "t"
        llm := fun _ => some "t", nmtWriteOk := true, llmWriteOk := true }).failedInc
      = 0 ∧
    (process_queue_message
      { job_id := none, source_container := some "src"
        target_container := some "tgt", source_blob := some "a.txt"
        target_language := some "es", source_language := none
        dictionary := none }
      { readResult := some "hi", nmt := fun _ => some "t"
        llm := fun _ => some "t", nmtWriteOk := true, llmWriteOk := true }).outcome
      = .raisedNameError := by
  constructor <;> rfl

/-- C2 amended: for every payload that does contain `job_id`, whenever
`process_queue_message` raises it is the original exception re-raised after
incrementing the job's failed counter by exactly one; a payload lacking
`job_id` instead makes the `except` clause itself raise a `NameError`
without incrementing anything. -/
theorem pqm_failed_bookkeeping (msg : QueueMessage) (env : PQEnv) :
    (msg.job_id ≠ none →
      (process_queue_message msg env).outcome ≠ .raisedNameError ∧
      ((process_queue_message msg env).outcome = .raisedSame →
        (process_queue_message msg env).failedInc = 1)) ∧
    (msg.job_id = none →
      (process_queue_message msg env).outcome = .raisedNameError ∧
      (process_queue_message msg env).failedInc = 0) := by
  unfold process_queue_message
  dsimp only
  repeat' split
  all_goals simp_all

/-- C2 amended witness. -/
theorem pqm_failed_bookkeeping_witness :
    (process_queue_message
      { job_id := some "j1", source_container := none
        target_container := some "tgt", source_blob := some "a.txt"
        target_language := some "es", source_language := none
        dictionary := none }
      { readResult := some "hi", nmt := fun _ => some "t"
        llm := fun _ => some "t", nmtWriteOk := true, llmWriteOk := true }).outcome
      ≠ PQOutcome.raisedNameError :=
  ((pqm_failed_bookkeeping _ _).1 (by simp)).1

/-- C6 counterexample: a malformed payload (structured-data parsing fails)
is NOT deleted by the worker loop: `delete_message` is never reached, the
exception is caught, and the message is left to reappear after the
visibility timeout. -/
theorem worker_malformed_counterexample :
    worker_handle_message none
      { readResult := some "hi", nmt := fun _ => some "t"
        llm := fun _ => some "t", nmtWriteOk := true, llmWriteOk := true } = false :=
  rfl

/-- C6 amended: for every environment, a queue message whose content fails
structured-data parsing is never deleted by the worker iteration; the
parsing exception is caught and the message is left to become visible
again for retry after the visibility timeout. -/
theorem worker_malformed_not_deleted (env : PQEnv) :
    worker_handle_message none env = false :=
  rfl

/-! ## Translator retry wrapper (`translator_service.py`)

`_make_request` and `_make_llm_request` are decorated with
`backoff.on_exception(backoff.expo, (httpx.RequestError, RateLimitException),
max_tries=3, max_time=30)`.  Inside the function body an
`httpx.RequestError` is caught and re-raised as `TranslatorServiceException`,
a 429 response raises `RateLimitException`, any other status ≥ 400 raises
`TranslatorServiceException`.  The decorator retries only when the
exception leaving the call is in its tuple.  Wall-clock backoff delays and
`max_time` are environmental and not modelled; the attempt-count bound is. -/

/-- Outcome of one underlying `httpx` call. -/
inductive HttpAttempt
  | connError
  | response (code : Nat) (body : String)
deriving DecidableEq, Repr

/-- What leaves one undecorated call: the returned body, or the exception
type (`httpx.RequestError` would be retryable but never leaves the body —
it is converted; `RateLimitException`; `TranslatorServiceException`). -/
inductive TransResult
  | ok (body : String)
  | requestErr
  | rateLimitErr
  | serviceErr
deriving DecidableEq, Repr

/-- One undecorated `_make_request` body: a connection error is caught and
converted to `TranslatorServiceException`; 429 raises
`RateLimitException`; status ≥ 400 raises `TranslatorServiceException`;
otherwise the body is returned. -/
def make_request_once : HttpAttempt → TransResult
  | .connError => .serviceErr
  | .response code body =>
    if code = 429 then .rateLimitErr
    else if 400 ≤ code then .serviceErr
    else .ok body

/-- The decorator's exception tuple `(httpx.RequestError,
RateLimitException)`: only these outcomes are retried. -/
def backoffRetryable : TransResult → Bool
  | .requestErr => true
  | .rateLimitErr => true
  | _ => false

/-- `backoff.on_exception` with a maximum number of tries: retry while the
outcome is retryable and tries remain; the final outcome (or any
non-retryable exception) propagates to the caller. -/
def backoffRun (tries : Nat) (attempts : List HttpAttempt) : TransResult :=
  match tries, attempts with
  | 0, _ => .serviceErr
  | _ + 1, [] => .serviceErr
  | 1, a :: _ => make_request_once a
  | n + 2, a :: rest =>
    let r := make_request_once a
    if backoffRetryable r then backoffRun (n + 1) rest else r

/-- `_make_request` as deployed: `max_tries=3`. -/
def make_request_with_retry (attempts : List HttpAttempt) : TransResult :=
  backoffRun 3 attempts

/-- C7: rate-limit (429) responses ARE retried (second and third conjunct:
a 429 then a 200 yields the success; three 429s exhaust `max_tries=3` and
propagate the rate-limit error), but a connection error is NOT retried —
the body converts `httpx.RequestError` into `TranslatorServiceException`
before the backoff decorator (whose tuple lists `httpx.RequestError`) can
see it, so the first connection error propagates even though the next
attempt would have returned 200 OK. -/
theorem translator_conn_error_not_retried :
    make_request_with_retry [.connError, .response 200 "ok"] = .serviceErr ∧
    make_request_with_retry [.response 429 "", .response 200 "ok"] = .ok "ok" ∧
    make_request_with_retry
      [.response 429 "", .response 429 "", .response 429 ""] = .rateLimitErr := by
  refine ⟨rfl, rfl, rfl⟩

/-! ## Batch job start (`BatchTranslationService.start_batch_job`) -/

/-- A listed source file together with the environmental outcomes of its
synchronous processing: whether `read_blob` succeeds, the content read,
and whether the NMT and LLM translate-and-write sequences succeed. -/
structure FileSpec where
  name : String
  readOk : Bool
  content : String
  nmtOk : Bool
  llmOk : Bool
deriving DecidableEq, Repr

/-- One iteration of the synchronous loop over `(processed, failed)`:
a failing read hits the outer `except` (failed += 1, continue); an
empty/whitespace file counts as failed; an NMT failure counts as failed;
otherwise the file counts as processed — an LLM failure after NMT success
is logged and swallowed (`# Don't increment failed_files if NMT
succeeded`), so `llmOk` never affects the counters. -/
def sync_process_file (counts : Nat × Nat) (fl : FileSpec) : Nat × Nat :=
  if !fl.readOk then (counts.1, counts.2 + 1)
  else if isBlank fl.content then (counts.1, counts.2 + 1)
  else if !fl.nmtOk then (counts.1, counts.2 + 1)
  else (counts.1 + 1, counts.2)

/-- The synchronous loop of `start_batch_job`. -/
def sync_counts (files : List FileSpec) : Nat × Nat :=
  files.foldl sync_process_file (0, 0)

/-- The condition under which the synchronous loop counts a file as
processed. -/
def counts_as_processed (fl : FileSpec) : Bool :=
  fl.readOk && !isBlank fl.content && fl.nmtOk

/-- Side effects of `start_batch_job` before and besides the synchronous
per-file processing. -/
inductive BatchEffect
  | ensureContainer (container : String)
  | listBlobs (container : String) (pfx : Option String)
  | createJob (totalFiles : Nat)
  | sendMessage (blobName : String)
  | trackerUpdate (status : String)
deriving DecidableEq, Repr

/-- The summary dictionary returned by `start_batch_job` (the fields the
claims are about). -/
structure BatchSummary where
  status : String
  total_files : Nat
  processed_files : Nat
  failed_files : Nat
deriving DecidableEq, Repr

/-- Environment of one `start_batch_job` call: the feature flag
`enable_batch_queue` and the listing returned by `list_blobs`. -/
structure BatchEnv where
  enableQueue : Bool
  files : List FileSpec

/-- `BatchTranslationService.start_batch_job`: validates
`source_container != target_container` first — the `ValueError` is raised
before the `try` block, so before `ensure_container_exists`, `list_blobs`,
any queue send and any tracker record.  Then: empty listing → completed
with zero files; queue mode → create the job, send one message per blob,
set status `processing`; otherwise process synchronously. -/
def start_batch_job (source_container target_container : String)
    (pfx : Option String) (env : BatchEnv) :
    List BatchEffect × Except String BatchSummary :=
  if source_container = target_container then
    ([], .error "Source and target containers must be different to avoid overwriting source files")
  else
    let effects := [BatchEffect.ensureContainer target_container,
                    BatchEffect.listBlobs source_container pfx]
    if env.files.isEmpty then
      (effects, .ok { status := "completed", total_files := 0
                      processed_files := 0, failed_files := 0 })
    else if env.enableQueue then
      (effects ++ [BatchEffect.createJob env.files.length]
        ++ env.files.map (fun fl => BatchEffect.sendMessage fl.name)
        ++ [BatchEffect.trackerUpdate "processing"],
       .ok { status := "queued", total_files := env.files.length
             processed_files := 0, failed_files := 0 })
    else
      (effects, .ok { status := "completed", total_files := env.files.length
                      processed_files := (sync_counts env.files).1
                      failed_files := (sync_counts env.files).2 })

theorem sync_process_file_eq (c : Nat × Nat) (fl : FileSpec) :
    sync_process_file c fl =
      if counts_as_processed fl then (c.1 + 1, c.2) else (c.1, c.2 + 1) := by
  unfold sync_process_file counts_as_processed
  cases h1 : fl.readOk <;> cases h2 : isBlank fl.content <;>
    cases h3 : fl.nmtOk <;> simp

theorem sync_counts_go (files : List FileSpec) :
    ∀ c : Nat × Nat, files.foldl sync_process_file c =
      (c.1 + (files.filter counts_as_processed).length,
       c.2 + (files.filter (fun fl => !counts_as_processed fl)).length) := by
  induction files with
  | nil => intro c; simp
  | cons fl fls ih =>
    intro c
    rw [List.foldl_cons, sync_process_file_eq, ih]
    cases h : counts_as_processed fl <;>
      simp [List.filter_cons, h] <;> omega

theorem sync_counts_eq (files : List FileSpec) :
    sync_counts files =
      ((files.filter counts_as_processed).length,
       (files.filter (fun fl => !counts_as_processed fl)).length) := by
  unfold sync_counts
  rw [sync_counts_go]
  simp

theorem filter_length_partition (files : List FileSpec) :
    (files.filter counts_as_processed).length
      + (files.filter (fun fl => !counts_as_processed fl)).length
      = files.length := by
  induction files with
  | nil => simp
  | cons fl fls ih =>
    cases h : counts_as_processed fl <;> simp [List.filter_cons, h] <;> omega

/-- C8: calling `start_batch_job` with `source_container =
target_container` fails with the validation error before any side effect:
no container creation, no blob listing, no queue message, no tracker
record. -/
theorem start_batch_job_same_container_no_side_effects
    (s t : String) (pfx : Option String) (env : BatchEnv) (h : s = t) :
    (start_batch_job s t pfx env).1 = [] ∧
    (start_batch_job s t pfx env).2 =
      .error "Source and target containers must be different to avoid overwriting source files" := by
  unfold start_batch_job
  rw [if_pos h]
  exact ⟨rfl, rfl⟩

/-- C8 witness. -/
theorem start_batch_job_same_container_no_side_effects_witness :
    (start_batch_job "docs" "docs" none
      { enableQueue := false, files := [] }).1 = [] :=
  (start_batch_job_same_container_no_side_effects "docs" "docs" none
    { enableQueue := false, files := [] } rfl).1

/-- C10: in synchronous mode, on a non-empty listing each file is counted
exactly once: it lands in `failed_files` exactly when its read fails, its
content is empty/whitespace or its NMT step fails, and in
`processed_files` otherwise (so the LLM outcome never affects the
counters), and the returned summary satisfies
`processed_files + failed_files = total_files = N`. -/
theorem sync_batch_counters_partition
    (s t : String) (pfx : Option String) (env : BatchEnv)
    (hne : s ≠ t) (hq : env.enableQueue = false) (hfiles : env.files ≠ []) :
    (start_batch_job s t pfx env).2 =
      .ok { status := "completed"
            total_files := env.files.length
            processed_files := (env.files.filter counts_as_processed).length
            failed_files :=
              (env.files.filter (fun fl => !counts_as_processed fl)).length } ∧
    (env.files.filter counts_as_processed).length
      + (env.files.filter (fun fl => !counts_as_processed fl)).length
      = env.files.length := by
  refine ⟨?_, filter_length_partition env.files⟩
  unfold start_batch_job
  rw [if_neg hne, if_neg (by simpa [List.isEmpty_iff] using hfiles), hq]
  simp [sync_counts_eq]

/-- C10 witness: two files — one fully successful, one whose LLM step
fails (still processed), plus a blank one and an NMT failure (both
failed). -/
theorem sync_batch_counters_partition_witness :
    (start_batch_job "src" "tgt" none
      { enableQueue := false
        files :=
          [{ name := "a.txt", readOk := true, content := "hello"
             nmtOk := true, llmOk := true },
           { name := "b.txt", readOk := true, content := "world"
             nmtOk := true, llmOk := false },
           { name := "c.txt", readOk := true, content := "  "
             nmtOk := true, llmOk := true },
           { name := "d.txt", readOk := true, content := "text"
             nmtOk := false, llmOk := true }] }).2 =
      .ok { status := "completed", total_files := 4
            processed_files := 2, failed_files := 2 } := by
  have h := sync_batch_counters_partition "src" "tgt" none
    { enableQueue := false
      files :=
        [{ name := "a.txt", readOk := true, content := "hello"
           nmtOk := true, llmOk := true },
         { name := "b.txt", readOk := true, content := "world"
           nmtOk := true, llmOk := false },
         { name := "c.txt", readOk := true, content := "  "
           nmtOk := true, llmOk := true },
         { name := "d.txt", readOk := true, content := "text"
           nmtOk := false, llmOk := true }] }
    (by decide) rfl (by decide)
  simpa using h.1
